import Mathlib

/-!
Verification of the integrity-check utilities:
file_pair_checker.py, json_date_validator.py and restore_specific_dates.py.

The Python code is shallowly embedded: JSON objects become association
lists of string keys and JSON values, file reads become `Except` values
(an `error` models a raised exception, carrying its message), and the
set algebra of the pair checker becomes `Finset` algebra over keys.
-/

namespace Snippets

/-- A JSON scalar value as loaded by the Python json module: null, string,
integer or boolean.  (Arrays and nested objects never reach the field
logic under scrutiny; a scalar model suffices for the validated fields.) -/
inductive JValue where
  | jnull : JValue
  | jstr (s : String) : JValue
  | jnum (n : Int) : JValue
  | jbool (b : Bool) : JValue
deriving DecidableEq, Repr

/-- A parsed JSON object: an association list from field names to values,
modelling a Python dict (keys unique, insertion-ordered). -/
abbrev JsonObj := List (String × JValue)

/-- Lookup of a field in a JSON object, modelling `data.get(field, None)`
mapped to `Option`. -/
def jget (d : JsonObj) (k : String) : Option JValue :=
  match d with
  | [] => none
  | (k2, v) :: rest => if k2 = k then some v else jget rest k

/-- Python str() on a JSON-loaded scalar: None prints as "None",
True/False capitalised, numbers as digits, strings unchanged. -/
def pyStr : JValue → String
  | .jnull => "None"
  | .jstr s => s
  | .jnum n => toString n
  | .jbool b => if b then "True" else "False"

/-- The expression `str(data.get(field, ''))` used by both the scanner and
the fixer: an absent field defaults to the empty string before the string
coercion. -/
def currentValueStr (d : JsonObj) (field : String) : String :=
  match jget d field with
  | none => ""
  | some v => pyStr v

/- ---------------------------------------------------------------------
file_pair_checker.py
--------------------------------------------------------------------- -/

/-- Python `Path(filename).stem`: the file name with its final extension removed;
a leading or trailing dot does not count as an extension separator. -/
def path_stem (name : String) : String :=
  let cs := name.data
  match cs.reverse.findIdx? (fun c => c = '.') with
  | none => name
  | some j =>
    let i := cs.length - 1 - j
    if 0 < i ∧ i < cs.length - 1 then String.mk (cs.take i) else name

/-- The helper `get_basename_without_ext` from FilePairChecker. -/
def get_basename_without_ext (filename : String) : String :=
  path_stem filename

/-- The basename sets built at lines 176-177 / 242-243 of the checker. -/
def basenames (files : List String) : Finset String :=
  (files.map get_basename_without_ext).toFinset

/-- The reconciliation result computed by `check_single_folder` and
`check_dual_folders` (both run the identical set algebra). -/
structure PairResult where
  matched : Finset String
  ext1Only : Finset String
  ext2Only : Finset String
  totalUnique : Nat
  matchRate : ℚ
deriving DecidableEq

/-- The set algebra of lines 182-188 (and 248-254): intersection,
the two differences, the size of the union, and the match rate, which is
0 when the union is empty. -/
def reconcile (A B : Finset String) : PairResult :=
  let perfect_pairs := A ∩ B
  let ext1_only := A \ B
  let ext2_only := B \ A
  let total_unique := (A ∪ B).card
  let match_rate : ℚ :=
    if 0 < total_unique then (perfect_pairs.card : ℚ) / (total_unique : ℚ) * 100 else 0
  ⟨perfect_pairs, ext1_only, ext2_only, total_unique, match_rate⟩

/-- The analysis of `check_single_folder` on collected file name lists. -/
def check_single_folder (files_ext1 files_ext2 : List String) : PairResult :=
  reconcile (basenames files_ext1) (basenames files_ext2)

/-- The analysis of `check_dual_folders` on collected file name lists: the same algebra,
the lists merely coming from two directories. -/
def check_dual_folders (files_ext1 files_ext2 : List String) : PairResult :=
  reconcile (basenames files_ext1) (basenames files_ext2)

/- ---------------------------------------------------------------------
json_date_validator.py
--------------------------------------------------------------------- -/

/-- The behaviour of `datetime.strptime`, abstracted: for a format string
and a text, the year of the parsed calendar date, or none when parsing
raises.  strptime is Python library code, not code of this repository, so
the validator loop is embedded parametrically in it. -/
abbrev StrpFn := String → String → Option Int

/-- A format is good for a text when strptime parses the text under it
and the parsed year lies in the configured inclusive range: the two
conditions checked at lines 184-188 of the validator. -/
def okFmt (strp : StrpFn) (lo hi : Int) (s fmt : String) : Bool :=
  match strp fmt s with
  | none => false
  | some y => if lo ≤ y ∧ y ≤ hi then true else false

/-- The format loop of `is_valid_date_format` (lines 182-193): formats are
tried in the given order; a parse failure and an out-of-range year both
fall through to the next format. -/
def tryFormats (strp : StrpFn) (lo hi : Int) (s : String) :
    List String → Bool × Option String
  | [] => (false, none)
  | fmt :: rest =>
    match strp fmt s with
    | some y =>
      if lo ≤ y ∧ y ≤ hi then (true, some fmt) else tryFormats strp lo hi s rest
    | none => tryFormats strp lo hi s rest

/-- The validator `is_valid_date_format` (lines 169-193): the guard rejecting falsy or
non-string values, then the format loop. -/
def is_valid_date_format (strp : StrpFn) (lo hi : Int) (formats : List String)
    (v : JValue) : Bool × Option String :=
  match v with
  | .jstr s => if s = "" then (false, none) else tryFormats strp lo hi s formats
  | _ => (false, none)

/-- The per-field classification of `check_json_file` (lines 195-268). -/
inductive Verdict where
  | valid : Verdict
  | invalid : Verdict
  | missing : Verdict
  | error : Verdict
deriving DecidableEq, Repr

/-- The verdict `check_json_file` assigns to one field of one record: a
read or parse exception yields `error` for the field; an absent key or a
null value (Python None after `data.get(field, None)`) yields `missing`;
otherwise the format validator decides `valid` versus `invalid`. -/
def check_field (strp : StrpFn) (lo hi : Int) (formats : List String)
    (readRes : Except String JsonObj) (field : String) : Verdict :=
  match readRes with
  | .error _ => .error
  | .ok d =>
    match jget d field with
    | none => .missing
    | some .jnull => .missing
    | some v =>
      if (is_valid_date_format strp lo hi formats v).1 then .valid else .invalid

/-- The loop of `check_json_file` over its list of target fields: one verdict per
requested field, in order. -/
def check_json_file (strp : StrpFn) (lo hi : Int) (formats : List String)
    (readRes : Except String JsonObj) (target_fields : List String) :
    List (String × Verdict) :=
  target_fields.map (fun f => (f, check_field strp lo hi formats readRes f))

/-- A concrete strptime fragment used as a witness: it parses the single
text "20250115" under the single format "%Y%m%d", to the year 2025. -/
def strpW : StrpFn := fun fmt s =>
  if fmt = "%Y%m%d" ∧ s = "20250115" then some 2025 else none

/-- A concrete strptime fragment mirroring real strptime on the text
"2200": under format "%Y" the four digits parse as the year 2200, and
under format "%H%M" they parse as the time 22:00 of the strptime default
year 1900; every other input fails to parse. -/
def strpCex : StrpFn := fun fmt s =>
  if fmt = "%Y" ∧ s = "2200" then some 2200
  else if fmt = "%H%M" ∧ s = "2200" then some 1900
  else none

/- ---------------------------------------------------------------------
restore_specific_dates.py
--------------------------------------------------------------------- -/

/-- The status field of a fix_file result. -/
inductive FixStatus where
  | success : FixStatus
  | failed : FixStatus
  | skipped : FixStatus
  | dry_run : FixStatus
deriving DecidableEq, Repr

/-- The per-record result dictionary built by fix_file, together with the
object content written back to the file on success (none when the file is
left untouched). -/
structure FixResult where
  status : FixStatus
  original_value : Option JValue
  new_value : String
  backup_path : Option String
  error : Option String
  written : Option JsonObj
deriving DecidableEq, Repr

/-- The Python dict assignment `data[field_name] = new_value`: replace the
binding of an existing key in place, or append a new binding at the end. -/
def setField (d : JsonObj) (k : String) (v : JValue) : JsonObj :=
  match d with
  | [] => [(k, v)]
  | (k2, w) :: rest => if k2 = k then (k, v) :: rest else (k2, w) :: setField rest k v

/-- The in-scope test shared by the scanner (line 240-243) and the fixer
(lines 313-317): read the record, take `str(data.get(field, ''))` and ask
whether it is among the target values; a record that fails to read is
never in scope. -/
def isTargetHit (field : String) (target_values : List String)
    (readRes : Except String JsonObj) : Bool :=
  match readRes with
  | .error _ => false
  | .ok d => currentValueStr d field ∈ target_values

/-- The repair step `fix_file` (lines 279-345).  The filesystem interactions are passed
in: `readRes` is the outcome of reading and json-parsing the file (an
exception carries its message), `backupPath` the path the backup copy
would get, and `writeRes` the outcome of the final write.  The returned
record mirrors the result dictionary of the source. -/
def fix_file (dry_run backup : Bool) (readRes : Except String JsonObj)
    (field : String) (target_values : List String) (new_value : String)
    (backupPath : Option String) (writeRes : Except String Unit) : FixResult :=
  match readRes with
  | .error e =>
    { status := .failed, original_value := none, new_value := new_value,
      backup_path := none, error := some e, written := none }
  | .ok data =>
    let original : JValue := (jget data field).getD (.jstr "")
    if pyStr original ∈ target_values then
      if dry_run then
        { status := .dry_run, original_value := some original, new_value := new_value,
          backup_path := none, error := none, written := none }
      else
        let bp := if backup then backupPath else none
        match writeRes with
        | .ok _ =>
          { status := .success, original_value := some original, new_value := new_value,
            backup_path := bp, error := none,
            written := some (setField data field (.jstr new_value)) }
        | .error e =>
          { status := .failed, original_value := some original, new_value := new_value,
            backup_path := bp, error := some e, written := none }
    else
      { status := .skipped, original_value := some original, new_value := new_value,
        backup_path := none, error := some "Not a target value", written := none }

/-- The scanner `scan_for_target_values` (lines 203-252): of the enumerated files,
keep exactly those whose read succeeds and whose current field value (with
the empty-string default and the str() coercion) is a target value; files
that fail to read are logged and passed over. -/
def scan_for_target_values (files : List (String × Except String JsonObj))
    (field : String) (target_values : List String) :
    List (String × Except String JsonObj) :=
  files.filter (fun p => isTargetHit field target_values p.2)

/-- The pipeline `fix_folders` (lines 347-432) for one folder, with the filesystem
passed in as the read outcome per file: scan for the target files, then
run fix_file on each hit and collect one result per hit. -/
def fix_folders (dry_run backup : Bool)
    (files : List (String × Except String JsonObj)) (field : String)
    (target_values : List String) (new_value : String)
    (backupPath : String → Option String)
    (writeRes : String → Except String Unit) :
    List (String × FixResult) :=
  (scan_for_target_values files field target_values).map
    (fun p => (p.1, fix_file dry_run backup p.2 field target_values new_value
      (backupPath p.1) (writeRes p.1)))

/-- A concrete one-file folder whose record holds a non-target value:
the counterexample scenario for the claim that such records appear as
skipped in the report. -/
def c6files : List (String × Except String JsonObj) :=
  [("a.json", .ok [("date", .jstr "X")])]

end Snippets

namespace Snippets

/-- C1: the reconciliation computes matched = A ∩ B, aOnly = A - B and
bOnly = B - A; the three sets are pairwise disjoint and their union is
exactly A ∪ B (an exact partition of the union of the key sets). -/
theorem C1_reconcile_partition (A B : Finset String) :
    (reconcile A B).matched = A ∩ B ∧
    (reconcile A B).ext1Only = A \ B ∧
    (reconcile A B).ext2Only = B \ A ∧
    Disjoint (reconcile A B).matched (reconcile A B).ext1Only ∧
    Disjoint (reconcile A B).matched (reconcile A B).ext2Only ∧
    Disjoint (reconcile A B).ext1Only (reconcile A B).ext2Only ∧
    (reconcile A B).matched ∪ (reconcile A B).ext1Only ∪ (reconcile A B).ext2Only
      = A ∪ B := by
  refine ⟨rfl, rfl, rfl, ?_, ?_, ?_, ?_⟩
  · rw [Finset.disjoint_left]
    intro a ha hb
    simp only [reconcile, Finset.mem_inter, Finset.mem_sdiff] at ha hb
    exact hb.2 ha.2
  · rw [Finset.disjoint_left]
    intro a ha hb
    simp only [reconcile, Finset.mem_inter, Finset.mem_sdiff] at ha hb
    exact hb.2 ha.1
  · rw [Finset.disjoint_left]
    intro a ha hb
    simp only [reconcile, Finset.mem_sdiff] at ha hb
    exact hb.2 ha.1
  · ext a
    simp only [reconcile, Finset.mem_union, Finset.mem_inter, Finset.mem_sdiff]
    tauto

/-- If the intersection of two finite sets equals their union, the two
sets are equal (and conversely). -/
theorem inter_eq_union_iff (A B : Finset String) : A ∩ B = A ∪ B ↔ A = B := by
  constructor
  · intro h
    apply Finset.Subset.antisymm
    · intro a ha
      have : a ∈ A ∩ B := by rw [h]; exact Finset.mem_union_left _ ha
      exact (Finset.mem_inter.mp this).2
    · intro a ha
      have : a ∈ A ∩ B := by rw [h]; exact Finset.mem_union_right _ ha
      exact (Finset.mem_inter.mp this).1
  · intro h
    subst h
    simp

/-- C2: the match rate equals card(A ∩ B) / card(A ∪ B) * 100, is 0 when
the union is empty (no division by zero), and is 100 exactly when both
difference sets are empty and A equals B and is non-empty. -/
theorem C2_match_rate (A B : Finset String) :
    (A ∪ B = ∅ → (reconcile A B).matchRate = 0) ∧
    (0 < (A ∪ B).card →
      (reconcile A B).matchRate = ((A ∩ B).card : ℚ) / ((A ∪ B).card : ℚ) * 100) ∧
    ((reconcile A B).matchRate = 100 ↔
      (A \ B = ∅ ∧ B \ A = ∅ ∧ A = B ∧ A.Nonempty)) := by
  refine ⟨?_, ?_, ?_⟩
  · intro h
    simp [reconcile, h]
  · intro h
    simp [reconcile, h]
  · by_cases hc : 0 < (A ∪ B).card
    · have hu : ((A ∪ B).card : ℚ) ≠ 0 := by
        exact_mod_cast Nat.pos_iff_ne_zero.mp hc
      have hrate : (reconcile A B).matchRate
          = ((A ∩ B).card : ℚ) / ((A ∪ B).card : ℚ) * 100 := by
        simp [reconcile, hc]
      rw [hrate]
      constructor
      · intro h100
        have h1 : ((A ∩ B).card : ℚ) = ((A ∪ B).card : ℚ) := by
          rw [div_mul_eq_mul_div, div_eq_iff hu] at h100
          linarith
        have hcard : (A ∩ B).card = (A ∪ B).card := by
          exact_mod_cast h1
        have hsub : A ∩ B = A ∪ B :=
          Finset.eq_of_subset_of_card_le Finset.inter_subset_union (le_of_eq hcard.symm)
        have hAB : A = B := (inter_eq_union_iff A B).mp hsub
        subst hAB
        rw [Finset.union_self] at hc
        exact ⟨by simp, by simp, rfl, Finset.card_pos.mp hc⟩
      · rintro ⟨-, -, hAB, hne⟩
        subst hAB
        rw [Finset.inter_self, Finset.union_self]
        have hA : (A.card : ℚ) ≠ 0 := by
          exact_mod_cast (Finset.card_pos.mpr hne).ne'
        rw [div_self hA, one_mul]
    · have hrate : (reconcile A B).matchRate = 0 := by
        simp [reconcile, hc]
      rw [hrate]
      constructor
      · intro h
        norm_num at h
      · rintro ⟨-, -, hAB, hne⟩
        exact absurd (Finset.card_pos.mpr ⟨hne.choose, Finset.mem_union_left _ hne.choose_spec⟩) hc

/-- Witness for C2 at the concrete sets A = B = single key: the rate is 100. -/
theorem C2_match_rate_witness : (reconcile {"a"} {"a"}).matchRate = 100 :=
  (C2_match_rate {"a"} {"a"}).2.2.mpr ⟨by simp, by simp, rfl, ⟨"a", by simp⟩⟩

/-- The format loop answers (false, none) exactly when no format in the
list both parses the text and yields an in-range year. -/
theorem tryFormats_eq_none_iff (strp : StrpFn) (lo hi : Int) (s : String)
    (fmts : List String) :
    tryFormats strp lo hi s fmts = (false, none) ↔
      ∀ f ∈ fmts, okFmt strp lo hi s f = false := by
  induction fmts with
  | nil => simp [tryFormats]
  | cons fmt rest ih =>
    cases h : strp fmt s with
    | none =>
      have hok : okFmt strp lo hi s fmt = false := by simp [okFmt, h]
      simp [tryFormats, h, hok, ih]
    | some y =>
      by_cases hy : lo ≤ y ∧ y ≤ hi
      · have hok : okFmt strp lo hi s fmt = true := by simp [okFmt, h, hy]
        simp [tryFormats, h, hy, hok]
      · have hok : okFmt strp lo hi s fmt = false := by simp [okFmt, h, hy]
        simp [tryFormats, h, hy, hok, ih]

/-- Shifting a bad head format across the first-good-format description. -/
theorem firstGood_cons_of_bad (strp : StrpFn) (lo hi : Int) (s fmt F : String)
    (rest : List String) (hok : okFmt strp lo hi s fmt = false) :
    (∃ l1 l2, rest = l1 ++ F :: l2 ∧ okFmt strp lo hi s F = true ∧
        ∀ g ∈ l1, okFmt strp lo hi s g = false) ↔
    (∃ l1 l2, fmt :: rest = l1 ++ F :: l2 ∧ okFmt strp lo hi s F = true ∧
        ∀ g ∈ l1, okFmt strp lo hi s g = false) := by
  constructor
  · rintro ⟨l1, l2, hl, hF, hbad⟩
    refine ⟨fmt :: l1, l2, by rw [hl]; rfl, hF, ?_⟩
    intro g hg
    rcases List.mem_cons.mp hg with hg1 | hg2
    · rw [hg1]; exact hok
    · exact hbad g hg2
  · rintro ⟨l1, l2, hl, hF, hbad⟩
    cases l1 with
    | nil =>
      simp only [List.nil_append, List.cons.injEq] at hl
      obtain ⟨h1, -⟩ := hl
      rw [h1] at hok
      rw [hok] at hF
      cases hF
    | cons a l1t =>
      simp only [List.cons_append, List.cons.injEq] at hl
      obtain ⟨-, hl2⟩ := hl
      exact ⟨l1t, l2, hl2, hF, fun g hg => hbad g (List.mem_cons_of_mem _ hg)⟩

/-- The format loop answers (true, some F) exactly when F is the first
format in the list that both parses the text and yields an in-range year. -/
theorem tryFormats_eq_some_iff (strp : StrpFn) (lo hi : Int) (s : String)
    (fmts : List String) (F : String) :
    tryFormats strp lo hi s fmts = (true, some F) ↔
      ∃ l1 l2, fmts = l1 ++ F :: l2 ∧ okFmt strp lo hi s F = true ∧
        ∀ g ∈ l1, okFmt strp lo hi s g = false := by
  induction fmts with
  | nil =>
    simp only [tryFormats]
    constructor
    · intro h
      simp at h
    · rintro ⟨l1, l2, hl, -, -⟩
      cases l1 <;> simp_all
  | cons fmt rest ih =>
    cases h : strp fmt s with
    | none =>
      have hok : okFmt strp lo hi s fmt = false := by simp [okFmt, h]
      have hstep : tryFormats strp lo hi s (fmt :: rest) = tryFormats strp lo hi s rest := by
        simp [tryFormats, h]
      rw [hstep, ih]
      exact firstGood_cons_of_bad strp lo hi s fmt F rest hok
    | some y =>
      by_cases hy : lo ≤ y ∧ y ≤ hi
      · have hok : okFmt strp lo hi s fmt = true := by simp [okFmt, h, hy]
        have hstep : tryFormats strp lo hi s (fmt :: rest) = (true, some fmt) := by
          simp [tryFormats, h, hy]
        rw [hstep]
        constructor
        · intro heq
          have hfF : fmt = F := by simpa using heq
          rw [hfF] at hok
          exact ⟨[], rest, by simp [hfF], hok, by simp⟩
        · rintro ⟨l1, l2, hl, hF, hbad⟩
          cases l1 with
          | nil =>
            simp only [List.nil_append, List.cons.injEq] at hl
            obtain ⟨h1, -⟩ := hl
            rw [h1]
          | cons a l1t =>
            simp only [List.cons_append, List.cons.injEq] at hl
            obtain ⟨ha, -⟩ := hl
            have := hbad a (by simp)
            rw [← ha] at this
            rw [hok] at this
            cases this
      · have hok : okFmt strp lo hi s fmt = false := by simp [okFmt, h, hy]
        have hstep : tryFormats strp lo hi s (fmt :: rest) = tryFormats strp lo hi s rest := by
          simp [tryFormats, h, hy]
        rw [hstep, ih]
        exact firstGood_cons_of_bad strp lo hi s fmt F rest hok

/-- The format loop only ever returns one of the two shapes (false, none)
or (true, some F). -/
theorem tryFormats_shape (strp : StrpFn) (lo hi : Int) (s : String)
    (fmts : List String) :
    tryFormats strp lo hi s fmts = (false, none) ∨
      ∃ F, tryFormats strp lo hi s fmts = (true, some F) := by
  induction fmts with
  | nil => exact Or.inl rfl
  | cons fmt rest ih =>
    cases h : strp fmt s with
    | none => simpa [tryFormats, h] using ih
    | some y =>
      by_cases hy : lo ≤ y ∧ y ≤ hi
      · exact Or.inr ⟨fmt, by simp [tryFormats, h, hy]⟩
      · simpa [tryFormats, h, hy] using ih

/-- C3: for a strptime that (like the real one under these formats) never
parses the empty text, the validator verdict is valid with matched format
F exactly when F is the first format in the given order that both parses
the text and yields a year in the inclusive range; when no format passes
both conditions the verdict is invalid with no matched format, and those
are the only two possible answers. -/
theorem C3_first_format_wins (strp : StrpFn) (hstrp : ∀ f, strp f "" = none)
    (lo hi : Int) (formats : List String) (s : String) :
    (is_valid_date_format strp lo hi formats (.jstr s) = (false, none) ↔
      ∀ f ∈ formats, okFmt strp lo hi s f = false) ∧
    (∀ F, is_valid_date_format strp lo hi formats (.jstr s) = (true, some F) ↔
      ∃ l1 l2, formats = l1 ++ F :: l2 ∧ okFmt strp lo hi s F = true ∧
        ∀ g ∈ l1, okFmt strp lo hi s g = false) ∧
    (is_valid_date_format strp lo hi formats (.jstr s) = (false, none) ∨
      ∃ F, is_valid_date_format strp lo hi formats (.jstr s) = (true, some F)) := by
  by_cases hs : s = ""
  · subst hs
    have hempty : is_valid_date_format strp lo hi formats (.jstr "") = (false, none) := by
      simp [is_valid_date_format]
    refine ⟨?_, ?_, Or.inl hempty⟩
    · rw [hempty]
      constructor
      · intro _ f _
        simp [okFmt, hstrp f]
      · intro _
        rfl
    · intro F
      rw [hempty]
      constructor
      · intro h
        simp at h
      · rintro ⟨l1, l2, -, hF, -⟩
        rw [show okFmt strp lo hi "" F = false from by simp [okFmt, hstrp F]] at hF
        cases hF
  · have hval : is_valid_date_format strp lo hi formats (.jstr s)
        = tryFormats strp lo hi s formats := by
      simp [is_valid_date_format, hs]
    rw [hval]
    exact ⟨tryFormats_eq_none_iff strp lo hi s formats,
      fun F => tryFormats_eq_some_iff strp lo hi s formats F,
      tryFormats_shape strp lo hi s formats⟩

/-- Witness for C3 at a concrete strptime fragment: the format "%Y%m%d"
is matched for the text "20250115" with year range 1900..2100. -/
theorem C3_first_format_wins_witness :
    (∀ f, strpW f "" = none) ∧
    is_valid_date_format strpW 1900 2100 ["%Y%m%d", "%Y-%m-%d"] (.jstr "20250115")
      = (true, some "%Y%m%d") := by
  have hs : ∀ f, strpW f "" = none := by
    intro f
    have hne : ¬(f = "%Y%m%d" ∧ ("" : String) = "20250115") := by
      rintro ⟨-, hcon⟩
      exact absurd hcon (by decide)
    simp [strpW, hne]
  refine ⟨hs, ?_⟩
  exact ((C3_first_format_wins strpW hs 1900 2100 ["%Y%m%d", "%Y-%m-%d"]
    "20250115").2.1 "%Y%m%d").mpr
    ⟨[], ["%Y-%m-%d"], rfl, by decide, by simp⟩

/-- Counterexample to C4 as stated: with formats ["%Y", "%H%M"] and year
range 1900..2100, the text "2200" parses under the configured format "%Y"
with the out-of-range year 2200, yet the verdict is valid, because the
later format "%H%M" parses it as a time of day with the in-range strptime
default year 1900. -/
theorem C4_counterexample :
    strpCex "%Y" "2200" = some 2200 ∧
    ¬((1900 : Int) ≤ 2200 ∧ (2200 : Int) ≤ 2100) ∧
    is_valid_date_format strpCex 1900 2100 ["%Y", "%H%M"] (.jstr "2200")
      = (true, some "%H%M") := by
  refine ⟨by decide, by decide, by decide⟩

/-- C4 (amended): a configured format under which the value parses with
an out-of-range year never becomes the matched format; and when no
configured format parses the value with an in-range year, the verdict is
invalid with no matched format, never valid. -/
theorem C4_out_of_range_never_matches (strp : StrpFn) (lo hi : Int)
    (formats : List String) (s : String) (F : String) (y : Int)
    (hparse : strp F s = some y) (hout : ¬(lo ≤ y ∧ y ≤ hi)) :
    (is_valid_date_format strp lo hi formats (.jstr s)).2 ≠ some F ∧
    ((∀ g ∈ formats, okFmt strp lo hi s g = false) →
      is_valid_date_format strp lo hi formats (.jstr s) = (false, none)) := by
  have hokF : okFmt strp lo hi s F = false := by simp [okFmt, hparse, hout]
  by_cases hs : s = ""
  · subst hs
    constructor
    · intro hsnd
      simp [is_valid_date_format] at hsnd
    · intro _
      simp [is_valid_date_format]
  · have hval : is_valid_date_format strp lo hi formats (.jstr s)
        = tryFormats strp lo hi s formats := by
      simp [is_valid_date_format, hs]
    rw [hval]
    constructor
    · intro hsnd
      rcases tryFormats_shape strp lo hi s formats with hnone | ⟨G, hG⟩
      · rw [hnone] at hsnd
        simp at hsnd
      · rw [hG] at hsnd
        simp only at hsnd
        have hGF : G = F := by simpa using hsnd
        rw [hGF] at hG
        obtain ⟨l1, l2, -, hFt, -⟩ :=
          (tryFormats_eq_some_iff strp lo hi s formats F).mp hG
        rw [hokF] at hFt
        cases hFt
    · intro hall
      exact (tryFormats_eq_none_iff strp lo hi s formats).mpr hall

/-- Witness for the amended C4 at the concrete strptime fragment: "%Y"
parses "2200" out of range and is indeed never the matched format. -/
theorem C4_out_of_range_never_matches_witness :
    strpCex "%Y" "2200" = some 2200 ∧
    (is_valid_date_format strpCex 1900 2100 ["%Y", "%H%M"] (.jstr "2200")).2
      ≠ some "%Y" :=
  ⟨by decide,
    (C4_out_of_range_never_matches strpCex 1900 2100 ["%Y", "%H%M"] "2200" "%Y" 2200
      (by decide) (by decide)).1⟩

/-- C8: for every record file and target field, a record that fails to
parse as a structured object yields the error verdict, distinct from
missing; a record that parses but whose field key is absent or holds the
null sentinel yields missing, not error; any other value is classified
valid or invalid; and check_json_file produces exactly one verdict per
requested field. -/
theorem C8_verdict_classification (strp : StrpFn) (lo hi : Int)
    (formats : List String) (readRes : Except String JsonObj) (field : String) :
    (∀ e, readRes = .error e →
      check_field strp lo hi formats readRes field = .error) ∧
    (∀ d, readRes = .ok d → (jget d field = none ∨ jget d field = some .jnull) →
      check_field strp lo hi formats readRes field = .missing) ∧
    Verdict.missing ≠ Verdict.error ∧
    (∀ d v, readRes = .ok d → jget d field = some v → v ≠ .jnull →
      check_field strp lo hi formats readRes field = .valid ∨
        check_field strp lo hi formats readRes field = .invalid) ∧
    (∀ fields, (check_json_file strp lo hi formats readRes fields).map Prod.fst
      = fields) := by
  refine ⟨?_, ?_, by decide, ?_, ?_⟩
  · intro e he
    rw [he]
    rfl
  · intro d hd hget
    rw [hd]
    rcases hget with h | h <;> simp [check_field, h]
  · intro d v hd hv hnn
    rw [hd]
    simp only [check_field, hv]
    cases v with
    | jnull => exact absurd rfl hnn
    | jstr s =>
      by_cases hb : (is_valid_date_format strp lo hi formats (.jstr s)).1 = true
      · exact Or.inl (by simp [hb])
      · exact Or.inr (by simp [hb])
    | jnum n =>
      exact Or.inr (by simp [is_valid_date_format])
    | jbool b =>
      exact Or.inr (by simp [is_valid_date_format])
  · intro fields
    simp only [check_json_file, List.map_map]
    exact List.map_id fields

/-- Witness for C8 at concrete records: a malformed record gives error, an
absent field gives missing, a null field gives missing, a string field is
classified, and the verdict list follows the requested fields. -/
theorem C8_verdict_classification_witness :
    check_field strpW 1900 2100 ["%Y%m%d"] (.error "bad json") "date" = .error ∧
    check_field strpW 1900 2100 ["%Y%m%d"] (.ok []) "date" = .missing ∧
    check_field strpW 1900 2100 ["%Y%m%d"] (.ok [("date", .jnull)]) "date" = .missing ∧
    (check_field strpW 1900 2100 ["%Y%m%d"] (.ok [("date", .jstr "x")]) "date" = .valid ∨
      check_field strpW 1900 2100 ["%Y%m%d"] (.ok [("date", .jstr "x")]) "date" = .invalid) ∧
    (check_json_file strpW 1900 2100 ["%Y%m%d"] (.ok []) ["a", "b"]).map Prod.fst
      = ["a", "b"] := by
  refine ⟨?_, ?_, ?_, ?_, ?_⟩
  · exact (C8_verdict_classification strpW 1900 2100 ["%Y%m%d"]
      (.error "bad json") "date").1 "bad json" rfl
  · exact (C8_verdict_classification strpW 1900 2100 ["%Y%m%d"]
      (.ok []) "date").2.1 [] rfl (Or.inl rfl)
  · exact (C8_verdict_classification strpW 1900 2100 ["%Y%m%d"]
      (.ok [("date", .jnull)]) "date").2.1 [("date", .jnull)] rfl (Or.inr (by decide))
  · exact (C8_verdict_classification strpW 1900 2100 ["%Y%m%d"]
      (.ok [("date", .jstr "x")]) "date").2.2.2.1 [("date", .jstr "x")] (.jstr "x")
      rfl (by decide) (by decide)
  · exact (C8_verdict_classification strpW 1900 2100 ["%Y%m%d"]
      (.ok []) "date").2.2.2.2 ["a", "b"]

/-- The shared in-scope expression of scanner and fixer coincide: the
string value with the empty-string default equals the str() coercion of
the defaulted lookup. -/
theorem currentValueStr_eq (d : JsonObj) (field : String) :
    currentValueStr d field = pyStr ((jget d field).getD (.jstr "")) := by
  cases h : jget d field <;> simp [currentValueStr, h, pyStr]

/-- After a dict assignment the assigned key holds the new value. -/
theorem jget_setField_self (d : JsonObj) (k : String) (v : JValue) :
    jget (setField d k v) k = some v := by
  induction d with
  | nil => simp [setField, jget]
  | cons p rest ih =>
    obtain ⟨k2, w⟩ := p
    by_cases h : k2 = k
    · simp [setField, h, jget]
    · simp [setField, h, jget, ih]

/-- A dict assignment leaves every other key untouched. -/
theorem jget_setField_ne (d : JsonObj) (k k2 : String) (v : JValue)
    (hne : k2 ≠ k) :
    jget (setField d k v) k2 = jget d k2 := by
  induction d with
  | nil =>
    have h1 : ¬(k = k2) := fun h => hne h.symm
    simp [setField, jget, h1]
  | cons p rest ih =>
    obtain ⟨a, w⟩ := p
    by_cases h : a = k
    · have h1 : ¬(k = k2) := fun hh => hne hh.symm
      have h2 : ¬(a = k2) := by rw [h]; exact h1
      simp [setField, h, jget, h1, h2]
    · by_cases h3 : a = k2
      · subst h3
        simp [setField, h, jget]
      · simp [setField, h, jget, h3, ih]

/-- C5: the in-scope versus skipped decision of a dry run coincides with
that of a real run on the same inputs: both skip exactly the same records,
the dry run answers dry_run exactly on the records that pass the shared
in-scope test, a real run on such a record ends in success or failed (it
attempts the mutation), and a real run never answers dry_run. -/
theorem C5_dry_run_predicts (backup : Bool) (readRes : Except String JsonObj)
    (field : String) (targets : List String) (nv : String)
    (bp : Option String) (w : Except String Unit) :
    ((fix_file true backup readRes field targets nv bp w).status = .skipped ↔
      (fix_file false backup readRes field targets nv bp w).status = .skipped) ∧
    ((fix_file true backup readRes field targets nv bp w).status = .dry_run ↔
      isTargetHit field targets readRes = true) ∧
    (isTargetHit field targets readRes = true →
      (fix_file false backup readRes field targets nv bp w).status = .success ∨
      (fix_file false backup readRes field targets nv bp w).status = .failed) ∧
    (fix_file false backup readRes field targets nv bp w).status ≠ .dry_run := by
  cases readRes with
  | error e => simp [fix_file, isTargetHit]
  | ok d =>
    have hcv := currentValueStr_eq d field
    by_cases hm : pyStr ((jget d field).getD (.jstr "")) ∈ targets
    · have hhit : isTargetHit field targets (.ok d) = true := by
        simp [isTargetHit, hcv, hm]
      cases w with
      | ok u => simp [fix_file, hm, hhit]
      | error e => simp [fix_file, hm, hhit]
    · have hhit : isTargetHit field targets (.ok d) = false := by
        simp [isTargetHit, hcv, hm]
      simp [fix_file, hm, hhit]

/-- Witness for C5 at a concrete in-scope record: the dry run answers
dry_run and the same real run ends in success or failed. -/
theorem C5_dry_run_predicts_witness :
    (fix_file true true (.ok [("date", .jstr "20169715")]) "date" ["20169715"]
      "20160715" none (.ok ())).status = .dry_run ∧
    ((fix_file false true (.ok [("date", .jstr "20169715")]) "date" ["20169715"]
      "20160715" none (.ok ())).status = .success ∨
     (fix_file false true (.ok [("date", .jstr "20169715")]) "date" ["20169715"]
      "20160715" none (.ok ())).status = .failed) := by
  have h := C5_dry_run_predicts true (.ok [("date", .jstr "20169715")]) "date"
    ["20169715"] "20160715" none (.ok ())
  exact ⟨h.2.1.mpr (by decide), h.2.2.1 (by decide)⟩

/-- Counterexample to C6 as stated: a folder holding one record whose
current value "X" is not among the target values produces an empty
per-record results list — the record is silently absent, with no skipped
entry, because the scan already filtered it out. -/
theorem C6_counterexample :
    isTargetHit "date" ["Y"] (Except.ok [("date", JValue.jstr "X")]) = false ∧
    fix_folders false true c6files "date" ["Y"] "Z" (fun _ => none)
      (fun _ => Except.ok ()) = [] :=
  ⟨by decide, by decide⟩

/-- C6 (amended): records whose current value is not among the target
values are excluded by the scan and receive no entry at all in the
per-record results list; the results list covers exactly the scan hits,
and (when the file content does not change between scan and fix) no entry
ever carries the skipped status. -/
theorem C6_scan_filters (dry backup : Bool)
    (files : List (String × Except String JsonObj)) (field : String)
    (targets : List String) (nv : String) (bpf : String → Option String)
    (wf : String → Except String Unit) :
    (fix_folders dry backup files field targets nv bpf wf).map Prod.fst
      = (scan_for_target_values files field targets).map Prod.fst ∧
    ∀ x ∈ fix_folders dry backup files field targets nv bpf wf,
      x.2.status ≠ FixStatus.skipped := by
  constructor
  · simp only [fix_folders, List.map_map]
    have hfun : (Prod.fst ∘ fun p : String × Except String JsonObj =>
        (p.1, fix_file dry backup p.2 field targets nv (bpf p.1) (wf p.1)))
        = Prod.fst := funext fun p => rfl
    rw [hfun]
  · intro x hx
    simp only [fix_folders, List.mem_map] at hx
    obtain ⟨p, hp, rfl⟩ := hx
    have hhit := (List.mem_filter.mp hp).2
    cases hr : p.2 with
    | error e =>
      rw [hr] at hhit
      simp [isTargetHit] at hhit
    | ok d =>
      rw [hr] at hhit
      have hm : pyStr ((jget d field).getD (.jstr "")) ∈ targets := by
        simpa [isTargetHit, currentValueStr_eq] using hhit
      cases dry <;> rcases hwf : wf p.1 with u | e <;> simp [fix_file, hm, hwf]

/-- Witness for the amended C6: on the concrete one-record folder the
per-record results carry exactly the scan hits. -/
theorem C6_scan_filters_witness :
    (fix_folders false true c6files "date" ["X"] "Z" (fun _ => none)
      (fun _ => Except.ok ())).map Prod.fst
      = (scan_for_target_values c6files "date" ["X"]).map Prod.fst :=
  (C6_scan_filters false true c6files "date" ["X"] "Z" (fun _ => none)
    (fun _ => Except.ok ())).1

/-- C7: an exception while reading or parsing a record surfaces as a
failed result carrying the captured message; an exception while writing an
in-scope record in a real run likewise surfaces as failed with the
message; and the batch always yields exactly one result per scanned
target record, so a failing record never aborts the others. -/
theorem C7_exceptions_isolated (dry backup : Bool) (field : String)
    (targets : List String) (nv : String) (bp : Option String) :
    (∀ e w, (fix_file dry backup (.error e) field targets nv bp w).status = .failed ∧
      (fix_file dry backup (.error e) field targets nv bp w).error = some e) ∧
    (∀ d e, isTargetHit field targets (.ok d) = true →
      (fix_file false backup (.ok d) field targets nv bp (.error e)).status = .failed ∧
      (fix_file false backup (.ok d) field targets nv bp (.error e)).error = some e) ∧
    (∀ files bpf wf,
      (fix_folders dry backup files field targets nv bpf wf).length
        = (scan_for_target_values files field targets).length) := by
  refine ⟨?_, ?_, ?_⟩
  · intro e w
    exact ⟨rfl, rfl⟩
  · intro d e hhit
    have hm : pyStr ((jget d field).getD (.jstr "")) ∈ targets := by
      simpa [isTargetHit, currentValueStr_eq] using hhit
    constructor <;> simp [fix_file, hm]
  · intro files bpf wf
    simp [fix_folders]

/-- Witness for C7 at concrete failing records: a parse exception and a
write exception each surface as failed with the captured message. -/
theorem C7_exceptions_isolated_witness :
    (fix_file false true (.error "boom") "date" ["X"] "Z" none (.ok ())).status = .failed ∧
    (fix_file false true (.error "boom") "date" ["X"] "Z" none (.ok ())).error = some "boom" ∧
    (fix_file false true (.ok [("date", .jstr "X")]) "date" ["X"] "Z" none
      (.error "disk full")).status = .failed ∧
    (fix_file false true (.ok [("date", .jstr "X")]) "date" ["X"] "Z" none
      (.error "disk full")).error = some "disk full" := by
  obtain ⟨h1, h2, -⟩ := C7_exceptions_isolated false true "date" ["X"] "Z" none
  obtain ⟨ha, hb⟩ := h1 "boom" (.ok ())
  obtain ⟨hc, hd⟩ := h2 [("date", .jstr "X")] "disk full" (by decide)
  exact ⟨ha, hb, hc, hd⟩

/-- A concrete record for the C9 witness. -/
def c9data : JsonObj := [("date", .jstr "20169715"), ("other", .jnum 5)]

/-- C9: a successful repair writes back exactly the original object with
the target field re-bound to the replacement value: the rewritten object
holds the replacement at the target field and agrees with the original
object at every other field. -/
theorem C9_success_frame (backup : Bool) (readRes : Except String JsonObj)
    (field : String) (targets : List String) (nv : String)
    (bp : Option String) (w : Except String Unit)
    (h : (fix_file false backup readRes field targets nv bp w).status = .success) :
    ∃ d, readRes = .ok d ∧
      (fix_file false backup readRes field targets nv bp w).written
        = some (setField d field (.jstr nv)) ∧
      jget (setField d field (.jstr nv)) field = some (.jstr nv) ∧
      ∀ k, k ≠ field → jget (setField d field (.jstr nv)) k = jget d k := by
  cases readRes with
  | error e => simp [fix_file] at h
  | ok d =>
    refine ⟨d, rfl, ?_, jget_setField_self d field (.jstr nv),
      fun k hk => jget_setField_ne d field k (.jstr nv) hk⟩
    by_cases hm : pyStr ((jget d field).getD (.jstr "")) ∈ targets
    · cases w with
      | ok u => simp [fix_file, hm]
      | error e => simp [fix_file, hm] at h
    · simp [fix_file, hm] at h

/-- Witness for C9 on a concrete two-field record: the written object
re-binds the date field and preserves the other field. -/
theorem C9_success_frame_witness :
    (fix_file false true (.ok c9data) "date" ["20169715"] "20160715"
      (some "b") (.ok ())).written = some (setField c9data "date" (.jstr "20160715")) ∧
    jget (setField c9data "date" (.jstr "20160715")) "other" = jget c9data "other" := by
  obtain ⟨d, hd, hw, -, hfr⟩ := C9_success_frame true (.ok c9data) "date"
    ["20169715"] "20160715" (some "b") (.ok ()) (by decide)
  injection hd with hd2
  subst hd2
  exact ⟨hw, hfr "other" (by decide)⟩

/-- C10: a record whose parsed object lacks the target field entirely is
treated by scan and fix alike as holding the empty string: it is in scope
exactly when the empty string is among the target values, and is skipped
exactly when it is not. -/
theorem C10_absent_field_as_empty (d : JsonObj) (field : String)
    (targets : List String) (nv : String) (backup dry : Bool)
    (bp : Option String) (w : Except String Unit)
    (h : jget d field = none) :
    currentValueStr d field = "" ∧
    (isTargetHit field targets (.ok d) = true ↔ "" ∈ targets) ∧
    ((fix_file dry backup (.ok d) field targets nv bp w).status = .skipped ↔
      "" ∉ targets) := by
  have hcv : currentValueStr d field = "" := by simp [currentValueStr, h]
  have hpy : pyStr ((jget d field).getD (.jstr "")) = "" := by simp [h, pyStr]
  refine ⟨hcv, by simp [isTargetHit, hcv], ?_⟩
  by_cases hm : ("" : String) ∈ targets
  · cases dry <;> cases w <;> simp [fix_file, hpy, hm]
  · simp [fix_file, hpy, hm]

/-- Witness for C10 at a concrete record lacking the date field, with the
empty string among the target values: the record is in scope and not
skipped. -/
theorem C10_absent_field_as_empty_witness :
    currentValueStr [("other", JValue.jstr "x")] "date" = "" ∧
    (isTargetHit "date" ["", "Y"] (.ok [("other", .jstr "x")]) = true ↔
      ("" : String) ∈ ["", "Y"]) ∧
    ((fix_file false true (.ok [("other", .jstr "x")]) "date" ["", "Y"] "Z"
      none (.ok ())).status = .skipped ↔ ("" : String) ∉ ["", "Y"]) :=
  C10_absent_field_as_empty [("other", .jstr "x")] "date" ["", "Y"] "Z"
    true false none (.ok ()) (by decide)

end Snippets
